import Mathlib

/-!
Verification of the agyc orchestrator's dispatch and session subsystem.

This file gives a shallow embedding, in Lean, of the parts of the Python
sources that the specification claims C1..C10 talk about:

* `agyc_orchestrator/sessions/subprocess_session.py` — `run_task` and `_env`;
* `agyc_orchestrator/api.py` — the error-to-HTTP-status mapping of
  `POST /v1/messages`;
* `agyc_orchestrator/dispatcher.py` — account picking (`_pick_account`),
  the router loop (`_router_loop`), the worker (`_account_worker`),
  `submit`'s copy of the request, health-score updates, and `stop`;
* `agyc_orchestrator/config.py` — per-account env construction in
  `load_config`.

Python floats only ever take the values 0..100 in steps produced by
`+0.5`, `-1.0`, `-5.0` with clamping here, all exactly representable, so
health scores and timestamps are modelled as rationals.  Machine-level
aspects (bytes vs str, the asyncio event loop) are abstracted: fallible
calls return `Except`, queues are lists with an explicit bound, and each
cooperative-concurrency step of a fiber is a pure state transition.
-/

/-- A JSON-like value: what `json.loads` produces and sessions return. -/
inductive Json where
  | str (s : String)
  | num (n : Int)
  | bool (b : Bool)
  | null
  | arr (elems : List Json)
  | obj (fields : List (String × Json))

/-- The Python exceptions that cross the boundaries the claims mention.
`runtimeError` carries the message string (both the `QueueFull` admission
error and the task-backend failure are `RuntimeError`s in the source);
`timeoutError` is `asyncio.TimeoutError`; anything else is `otherError`. -/
inductive PyExc where
  | runtimeError (msg : String)
  | timeoutError
  | otherError (name : String)
  deriving DecidableEq

/- ------------------------------------------------------------------ -/
/- SubprocessSession.run_task  (subprocess_session.py lines 77-98)    -/
/- ------------------------------------------------------------------ -/

/-- Outcome of the spawned `task_command` process: exit status and the
decoded stdout / stderr texts. -/
structure ProcResult where
  returncode : Int
  stdout : String
  stderr : String

/-- The message of the `RuntimeError` raised when `task_command` exits
non-zero: `f"taskCommand failed for {id} rc={rc}: {stderr}"`. -/
def taskFailMsg (accountId : String) (rc : Int) (stderr : String) : String :=
  "taskCommand failed for " ++ accountId ++ " rc=" ++ toString rc ++ ": " ++ stderr

/-- `SubprocessSession.run_task`, embedded over the outcome of the spawned
process.  `parse` stands for `json.loads` on the decoded stdout (`none`
when it raises).  Source, lines 77-98 of `subprocess_session.py`:
no `task_command` raises; a non-zero exit raises a `RuntimeError` built by
`taskFailMsg`; exit 0 returns the parsed JSON, or the raw-wrapped stdout
when parsing fails. -/
def runTask (taskCommand : Option (List String)) (accountId : String)
    (parse : String → Option Json) (proc : ProcResult) : Except PyExc Json :=
  match taskCommand with
  | none => .error (.runtimeError ("Account " ++ accountId ++ " has no taskCommand configured"))
  | some _ =>
    if proc.returncode ≠ 0 then
      .error (.runtimeError (taskFailMsg accountId proc.returncode proc.stderr))
    else
      match parse proc.stdout with
      | some j => .ok j
      | none => .ok (.obj [("raw", .str proc.stdout)])

/- ------------------------------------------------------------------ -/
/- POST /v1/messages error mapping  (api.py lines 70-75)              -/
/- ------------------------------------------------------------------ -/

/-- The HTTP status `v1_messages` produces when `dispatcher.submit` raises,
embedded from `api.py` lines 70-75: `except RuntimeError` → 429,
`except asyncio.TimeoutError` → 504; any other exception is unhandled in
the endpoint and surfaces as the framework's generic 500. -/
def v1MessagesStatusOfSubmitError : PyExc → Nat
  | .runtimeError _ => 429
  | .timeoutError => 504
  | .otherError _ => 500

/-- The `RuntimeError` message `Dispatcher.submit` raises when the global
queue is full (`dispatcher.py` line 84). -/
def queueFullMsg : String := "Global queue is full"

/- ------------------------------------------------------------------ -/
/- Dispatcher data model  (dispatcher.py lines 13-64)                 -/
/- ------------------------------------------------------------------ -/

/-- `SessionHandle` (session_manager.py lines 12-17), restricted to the
fields the dispatcher reads: the account id and its concurrency bound. -/
structure SessionHandle where
  account_id : String
  max_concurrency : Nat
  deriving DecidableEq

/-- `AccountState` (dispatcher.py lines 28-36), restricted to the fields
the routing and health claims read.  `queueLen` is the current length of
the account's bounded local `asyncio.Queue`. -/
structure AccountState where
  handle : SessionHandle
  queueLen : Nat
  last_used_ts : ℚ
  health_score : ℚ
  inflight : Nat
  deriving DecidableEq

/-- Python's `str.lower` on the ASCII range (the strategy strings the
dispatcher compares are ASCII). -/
def charLower (c : Char) : Char :=
  if 'A' ≤ c ∧ c ≤ 'Z' then Char.ofNat (c.toNat + 32) else c

/-- `s.lower()` for ASCII strings. -/
def pyLower (s : String) : String := String.mk (s.data.map charLower)

/-- Strict `<` on characters by code point, for Python's lexicographic
string order. -/
def charLtB (c d : Char) : Bool := c.val < d.val

/-- Python's `<=` on strings: lexicographic over code points. -/
def strLeB : List Char → List Char → Bool
  | [], _ => true
  | _ :: _, [] => false
  | c :: cs, d :: ds =>
    if charLtB c d then true
    else if charLtB d c then false
    else strLeB cs ds

/-- `a <= b` for Python strings. -/
def pyStrLe (a b : String) : Bool := strLeB a.data b.data

/-- Insert into a list sorted by account id (helper of `sortById`). -/
def insertById (a : AccountState) : List AccountState → List AccountState
  | [] => [a]
  | b :: rest =>
    if pyStrLe a.handle.account_id b.handle.account_id then a :: b :: rest
    else b :: insertById a rest

/-- `sorted(usable, key=lambda a: a.handle.account_id)` — account ids are
unique within a fleet, so any sort by id agrees with Python's stable one. -/
def sortById : List AccountState → List AccountState
  | [] => []
  | a :: rest => insertById a (sortById rest)

/-- Python's `min(l, key=key)` loop: scan left to right, replacing the
current best only on a strictly smaller key (ties keep the earlier
element). -/
def pyFoldMin (key : AccountState → ℚ) : AccountState → List AccountState → AccountState
  | acc, [] => acc
  | acc, y :: ys => pyFoldMin key (if key y < key acc then y else acc) ys

/-- Python's `max(l, key=key)` loop: replace only on a strictly greater
key (ties keep the earlier element). -/
def pyFoldMax (key : AccountState → ℚ) : AccountState → List AccountState → AccountState
  | acc, [] => acc
  | acc, y :: ys => pyFoldMax key (if key acc < key y then y else acc) ys

/-- `min(l, key=key)`; `none` on the empty list (where Python raises). -/
def pyMinBy (key : AccountState → ℚ) : List AccountState → Option AccountState
  | [] => none
  | x :: xs => some (pyFoldMin key x xs)

/-- `max(l, key=key)`; `none` on the empty list. -/
def pyMaxBy (key : AccountState → ℚ) : List AccountState → Option AccountState
  | [] => none
  | x :: xs => some (pyFoldMax key x xs)

/- ------------------------------------------------------------------ -/
/- Dispatcher._usable_accounts and _pick_account (dispatcher.py 93-114)-/
/- ------------------------------------------------------------------ -/

/-- `[a for a in self._accounts.values() if a.health_score > 0]` —
the account list is in the account-map insertion order, which is the
configuration order. -/
def usableAccounts (accounts : List AccountState) : List AccountState :=
  accounts.filter (fun a => 0 < a.health_score)

/-- `(hint or self._cfg.routing or "round-robin")`: Python's falsy chain,
where a missing hint is `None` and the empty string is falsy. -/
def effStrategyRaw (hint : Option String) (routing : String) : String :=
  match hint with
  | some s => if s = "" then (if routing = "" then "round-robin" else routing) else s
  | none => if routing = "" then "round-robin" else routing

/-- The strategy-name aliases the `lru` branch recognises. -/
def lruNames : List String := ["lru", "least-recently-used", "least_recently_used"]

/-- The strategy-name aliases the `health` branch recognises. -/
def healthNames : List String := ["health", "health-score", "health_score"]

/-- `Dispatcher._pick_account` (dispatcher.py lines 97-114): lower-case the
effective strategy, filter to usable accounts, then pick by `min` on
`last_used_ts`, `max` on `health_score`, or the sorted round-robin cursor.
Returns the pick together with the updated `_rr_cursor` (only the
round-robin branch touches the cursor). -/
def pickAccount (routing : String) (hint : Option String)
    (accounts : List AccountState) (rrCursor : Nat) : Option AccountState × Nat :=
  let strategy := pyLower (effStrategyRaw hint routing)
  let usable := usableAccounts accounts
  if usable = [] then (none, rrCursor)
  else if strategy ∈ lruNames then
    (pyMinBy (fun a => a.last_used_ts) usable, rrCursor)
  else if strategy ∈ healthNames then
    (pyMaxBy (fun a => a.health_score) usable, rrCursor)
  else
    let ordered := sortById usable
    let c := rrCursor % ordered.length
    (ordered[c]?, (c + 1) % ordered.length)

/- ------------------------------------------------------------------ -/
/- Router loop iteration  (dispatcher.py lines 116-146)               -/
/- ------------------------------------------------------------------ -/

/-- What one placement attempt of `_router_loop`'s inner `while` does with
the item at hand. -/
inductive RouterStep where
  /-- `_pick_account` returned `None`: sleep 100 ms and re-pick. -/
  | noUsableSleep
  /-- the picked account was saturated and the capacity event fired within
  the 1 s timeout: re-pick. -/
  | capacityWaitThenRepick
  /-- an exception escaped the loop body; `_router_loop` has no handler,
  so the router fiber terminates with it. -/
  | uncaught (e : PyExc)
  /-- `put_nowait` succeeded: the item is on this account's local queue. -/
  | enqueuedTo (accountId : String)
  /-- `put_nowait` raised `QueueFull`: penalise the account and re-pick. -/
  | localQueueFullRepick (accountId : String)
  deriving DecidableEq

/-- One iteration of the inner placement loop of `Dispatcher._router_loop`
(dispatcher.py lines 125-144), for a task whose strategy hint is `hint`.
`capacityFiredWithin1s` says whether some worker signalled the fleet-wide
capacity event before the 1 s `asyncio.wait_for` timeout; when it did not,
`wait_for` raises `asyncio.TimeoutError`, which the source does not catch
anywhere in `_router_loop`.  Returns the step outcome and the updated
round-robin cursor. -/
def routerIteration (routing : String) (perAccountQueueSize : Nat)
    (hint : Option String) (accounts : List AccountState) (rrCursor : Nat)
    (capacityFiredWithin1s : Bool) : RouterStep × Nat :=
  match pickAccount routing hint accounts rrCursor with
  | (none, c) => (.noUsableSleep, c)
  | (some acc, c) =>
    if acc.handle.max_concurrency ≤ acc.inflight then
      if capacityFiredWithin1s then (.capacityWaitThenRepick, c)
      else (.uncaught .timeoutError, c)
    else if acc.queueLen < perAccountQueueSize then
      (.enqueuedTo acc.handle.account_id, c)
    else
      (.localQueueFullRepick acc.handle.account_id, c)

/- ------------------------------------------------------------------ -/
/- Result slots  (dispatcher.py lines 72-80, 148-182)                 -/
/- ------------------------------------------------------------------ -/

/-- The state of a task's result slot (the `asyncio.Future` in
`TaskItem.future`). -/
inductive Slot where
  | unfulfilled
  | result (v : Json)
  | error (e : PyExc)

/-- `future.done()`. -/
def slotDone : Slot → Bool
  | .unfulfilled => false
  | .result _ => true
  | .error _ => true

/-- `if not item.future.done(): item.future.set_result(v)`
(dispatcher.py lines 172-173). -/
def setResultIfPending (s : Slot) (v : Json) : Slot :=
  if slotDone s then s else .result v

/-- `if not item.future.done(): item.future.set_exception(e)`
(dispatcher.py lines 178-179). -/
def setExceptionIfPending (s : Slot) (e : PyExc) : Slot :=
  if slotDone s then s else .error e

/-- The events that can touch a given task's result slot: the account
worker completing the task successfully or with an error, and
`Dispatcher.stop`.  `stop` (dispatcher.py lines 72-80) sets the stop
event, cancels the router and worker fibers and awaits them; it performs
no operation on any task's future, and the cancelled workers cannot reach
their `except Exception` arm for a `CancelledError` (a `BaseException`),
so a stop leaves every slot exactly as it was. -/
inductive SlotEvent where
  | workerSuccess (v : Json)
  | workerFailure (e : PyExc)
  | dispatcherStopCalled

/-- Effect of one event on a slot, embedded from `_account_worker`'s two
fulfilment sites and from `stop`. -/
def slotStep (s : Slot) : SlotEvent → Slot
  | .workerSuccess v => setResultIfPending s v
  | .workerFailure e => setExceptionIfPending s e
  | .dispatcherStopCalled => s

/-- A task slot's evolution under a sequence of events. -/
def slotRun (s : Slot) (evs : List SlotEvent) : Slot := evs.foldl slotStep s

/- ------------------------------------------------------------------ -/
/- Health-score updates (dispatcher.py lines 142, 166, 175)           -/
/- ------------------------------------------------------------------ -/

/-- `acc.health_score = max(0.0, acc.health_score - 1.0)` — the router's
local-queue-full penalty (dispatcher.py line 142). -/
def queueFullPenalty (h : ℚ) : ℚ := max 0 (h - 1)

/-- `acc.health_score = max(0.0, acc.health_score - 5.0)` — the worker's
per-failure penalty (dispatcher.py line 175). -/
def failurePenalty (h : ℚ) : ℚ := max 0 (h - 5)

/-- `acc.health_score = min(100.0, acc.health_score + 0.5)` — the worker's
per-success reward (dispatcher.py line 166). -/
def successReward (h : ℚ) : ℚ := min 100 (h + 0.5)

/-- The three events that write `health_score` anywhere in the source. -/
inductive HealthEvent where
  | taskFailure
  | localQueueFullMiss
  | taskSuccess

/-- The health-score update performed for each event. -/
def applyHealth (h : ℚ) : HealthEvent → ℚ
  | .taskFailure => failurePenalty h
  | .localQueueFullMiss => queueFullPenalty h
  | .taskSuccess => successReward h

/-- The health score after a sequence of events, starting from `h`.
Accounts start at `health_score = 100.0` (dispatcher.py line 34). -/
def runHealth (h : ℚ) (evs : List HealthEvent) : ℚ := evs.foldl applyHealth h

/- ------------------------------------------------------------------ -/
/- Environment propagation (config.py 90-114, subprocess_session 25-29)-/
/- ------------------------------------------------------------------ -/

/-- An environment / string dict, as an association list; the first
binding of a key is its value. -/
def envLookup : List (String × String) → String → Option String
  | [], _ => none
  | (k, v) :: rest, key => if k = key then some v else envLookup rest key

/-- `base.update(upd)`: entries of `upd` win over entries of `base`. -/
def envUpdate (base upd : List (String × String)) : List (String × String) :=
  upd ++ base

/-- `e.setdefault(k, v)`: insert `k ↦ v` only when `k` is absent. -/
def envSetdefault (e : List (String × String)) (k v : String) :
    List (String × String) :=
  if (envLookup e k).isSome then e else e ++ [(k, v)]

/-- `os.path.expanduser` restricted to the `~`-as-current-user forms. -/
def expanduser (home s : String) : String :=
  match s.data with
  | ['~'] => home
  | '~' :: '/' :: rest => String.mk (home.data ++ ('/' :: rest))
  | _ => s

/-- The account `env` built by `load_config` (config.py lines 101-102):
the raw env from the config file with `AG_CONFIG_DIR` defaulted to the
*raw* `stateDir` string — the `setdefault` on line 102 runs on the
pre-`expanduser` value. -/
def loadConfigAccountEnv (rawEnv : List (String × String)) (rawStateDir : String) :
    List (String × String) :=
  envSetdefault rawEnv "AG_CONFIG_DIR" rawStateDir

/-- The `state_dir` stored in `AccountConfig` (config.py line 107):
the `stateDir` string with `~` expanded. -/
def loadConfigStateDir (home rawStateDir : String) : String :=
  expanduser home rawStateDir

/-- `SubprocessSession._env` (subprocess_session.py lines 25-29):
`dict(os.environ)` updated with the account's env, then `AG_CONFIG_DIR`
defaulted to the stored `state_dir`. -/
def sessionEnv (processEnv cfgEnv : List (String × String)) (cfgStateDir : String) :
    List (String × String) :=
  envSetdefault (envUpdate processEnv cfgEnv) "AG_CONFIG_DIR" cfgStateDir

/-- The environment an account's spawned commands receive, composing
`load_config` with `SubprocessSession._env` for an account whose config
file gave `rawEnv` and `rawStateDir`. -/
def spawnEnvForAccount (processEnv rawEnv : List (String × String))
    (home rawStateDir : String) : List (String × String) :=
  sessionEnv processEnv (loadConfigAccountEnv rawEnv rawStateDir)
    (loadConfigStateDir home rawStateDir)

/- ------------------------------------------------------------------ -/
/- Request copying at admission (dispatcher.py line 89)               -/
/- ------------------------------------------------------------------ -/

/-- A Python value as seen from a dict slot: a primitive, or a reference
to a (mutable) dict living on the heap. -/
inductive PyVal where
  | vint (n : Int)
  | vstr (s : String)
  | vref (addr : Nat)
  deriving DecidableEq

/-- A Python dict object: its own key/value table. -/
abbrev PyDict := List (String × PyVal)

/-- The heap: dict objects by address. -/
abbrev Heap := List (Nat × PyDict)

/-- Read the dict object at an address. -/
def heapGet : Heap → Nat → Option PyDict
  | [], _ => none
  | (b, d) :: rest, a => if b = a then some d else heapGet rest a

/-- Replace the dict object at an address (addresses are unique). -/
def heapSet : Heap → Nat → PyDict → Heap
  | [], _, _ => []
  | (b, d) :: rest, a, d' => if b = a then (a, d') :: rest else (b, d) :: heapSet rest a d'

/-- Lookup in a dict object's own table. -/
def dictLookup : PyDict → String → Option PyVal
  | [], _ => none
  | (k, v) :: rest, key => if k = key then some v else dictLookup rest key

/-- `d[k] = v` on a dict's own table: overwrite in place or append. -/
def dictSet : PyDict → String → PyVal → PyDict
  | [], k, v => [(k, v)]
  | (k', v') :: rest, k, v =>
    if k' = k then (k, v) :: rest else (k', v') :: dictSet rest k v

/-- `obj[k] = v` for the dict object at address `a` — a caller-side
mutation. -/
def heapSetKey (h : Heap) (a : Nat) (k : String) (v : PyVal) : Heap :=
  match heapGet h a with
  | some d => heapSet h a (dictSet d k v)
  | none => h

/-- `dict(request)` as performed by `Dispatcher.submit` (dispatcher.py
line 89): allocate a fresh dict whose table is a copy of the source's
top-level table; the values — including references to nested dicts — are
shared, not copied. -/
def shallowCopyDict (h : Heap) (src fresh : Nat) : Heap :=
  match heapGet h src with
  | some d => h ++ [(fresh, d)]
  | none => h

/-- The fully-resolved tree a dict denotes — what `json.dumps` serialises
when the request reaches `run_task`. -/
inductive JTree where
  | jint (n : Int)
  | jstr (s : String)
  | jdict (fields : List (String × JTree))

/-- Resolve each entry of a dict table, dereferencing nested dicts with
`resolveRef`. -/
def resolveEntries (resolveRef : Nat → Option JTree) :
    List (String × PyVal) → Option (List (String × JTree))
  | [] => some []
  | (k, .vint n) :: rest =>
    (resolveEntries resolveRef rest).map (fun ts => (k, .jint n) :: ts)
  | (k, .vstr s) :: rest =>
    (resolveEntries resolveRef rest).map (fun ts => (k, .jstr s) :: ts)
  | (k, .vref a) :: rest =>
    match resolveRef a, resolveEntries resolveRef rest with
    | some t, some ts => some ((k, t) :: ts)
    | _, _ => none

/-- One dereferencing layer of `snapshotDict`. -/
def snapshotStep (h : Heap) (ih : Nat → Option JTree) (a : Nat) : Option JTree :=
  match heapGet h a with
  | none => none
  | some d => (resolveEntries ih d).map JTree.jdict

/-- The value tree denoted by the dict at address `a`, up to `fuel`
nesting levels. -/
def snapshotDict (h : Heap) (fuel : Nat) : Nat → Option JTree :=
  Nat.rec (fun _ => none) (fun _ ih => snapshotStep h ih) fuel

/- ================================================================== -/
/- Theorems                                                           -/
/- ================================================================== -/

/-- Claim C4 (confirmed): for every `run_task` invocation with a configured
`task_command`: exit 0 with JSON-parsable stdout returns that JSON; exit 0
with unparsable stdout returns the raw-wrapped stdout object; a non-zero
exit fails with the backend `RuntimeError` whose message carries the
account id, the exit code and the stderr text. -/
theorem run_task_contract (cmd : List String) (accountId : String)
    (parse : String → Option Json) (rc : Int) (out err : String) :
    (rc = 0 → ∀ j, parse out = some j →
      runTask (some cmd) accountId parse ⟨rc, out, err⟩ = .ok j)
    ∧ (rc = 0 → parse out = none →
      runTask (some cmd) accountId parse ⟨rc, out, err⟩ = .ok (.obj [("raw", .str out)]))
    ∧ (rc ≠ 0 →
      runTask (some cmd) accountId parse ⟨rc, out, err⟩ =
        .error (.runtimeError
          ("taskCommand failed for " ++ accountId ++ " rc=" ++ toString rc ++ ": " ++ err))) := by
  refine ⟨?_, ?_, ?_⟩
  · intro h0 j hj
    simp [runTask, h0, hj]
  · intro h0 hj
    simp [runTask, h0, hj]
  · intro hne
    simp [runTask, hne, taskFailMsg]

/-- Witness for `run_task_contract`: all three branches evaluated at
concrete inputs. -/
theorem run_task_contract_witness :
    runTask (some ["echo"]) "acct" (fun s => if s = "ok" then some (.str "fine") else none)
        ⟨0, "ok", ""⟩ = .ok (.str "fine")
    ∧ runTask (some ["echo"]) "acct" (fun s => if s = "ok" then some (.str "fine") else none)
        ⟨0, "junk", ""⟩ = .ok (.obj [("raw", .str "junk")])
    ∧ runTask (some ["echo"]) "acct" (fun s => if s = "ok" then some (.str "fine") else none)
        ⟨1, "", "boom"⟩ =
      .error (.runtimeError
        ("taskCommand failed for " ++ "acct" ++ " rc=" ++ toString (1 : Int) ++ ": " ++ "boom")) :=
  ⟨(run_task_contract ["echo"] "acct" _ 0 "ok" "").1 rfl _ rfl,
   (run_task_contract ["echo"] "acct" _ 0 "junk" "").2.1 rfl rfl,
   (run_task_contract ["echo"] "acct" _ 1 "" "boom").2.2 (by decide)⟩

/-- Claim C3 (code bug): the spec maps `QueueFull` to 429, timeouts to 504
and every other backend error — in particular a `TaskBackendError` from a
`task_command` that exited non-zero — to 500.  The endpoint's handler
(`api.py` lines 70-75) catches every `RuntimeError` as 429, and the
backend failure raised by `run_task` *is* a `RuntimeError`
(`subprocess_session.py` line 91), so a failed task command surfaces as
HTTP 429, not 500.  This theorem evaluates the code at the failing input:
a `task_command` exiting 1 with stderr `boom`. -/
theorem backend_error_surfaces_as_429 :
    runTask (some ["run"]) "acct" (fun _ => none) ⟨1, "", "boom"⟩ =
      .error (.runtimeError (taskFailMsg "acct" 1 "boom"))
    ∧ v1MessagesStatusOfSubmitError (.runtimeError (taskFailMsg "acct" 1 "boom")) = 429
    ∧ v1MessagesStatusOfSubmitError (.runtimeError queueFullMsg) = 429
    ∧ v1MessagesStatusOfSubmitError .timeoutError = 504
    ∧ (429 : Nat) ≠ 500 :=
  ⟨rfl, rfl, rfl, rfl, by decide⟩

/-- Every single health-score update keeps the score within `[0, 100]`
when it starts there. -/
theorem applyHealth_bounds (h : ℚ) (e : HealthEvent) (h0 : 0 ≤ h) (h100 : h ≤ 100) :
    0 ≤ applyHealth h e ∧ applyHealth h e ≤ 100 := by
  cases e
  · exact ⟨le_max_left 0 _, max_le (by norm_num) (by linarith)⟩
  · exact ⟨le_max_left 0 _, max_le (by norm_num) (by linarith)⟩
  · exact ⟨le_min (by norm_num) (by linarith), min_le_left 100 _⟩

/-- Bounds are preserved along any event sequence. -/
theorem runHealth_bounds (evs : List HealthEvent) :
    ∀ h : ℚ, 0 ≤ h → h ≤ 100 → 0 ≤ runHealth h evs ∧ runHealth h evs ≤ 100 := by
  induction evs with
  | nil => intro h h0 h100; exact ⟨h0, h100⟩
  | cons e rest ih =>
    intro h h0 h100
    have hb := applyHealth_bounds h e h0 h100
    simpa [runHealth, List.foldl] using ih (applyHealth h e) hb.1 hb.2

/-- Claim C5 (confirmed): starting from the initial score 100, any
sequence of the three score-writing events — task failure (−5, clamped at
0, dispatcher.py line 175), local-queue-full miss (−1, clamped at 0, line
142) and task success (+0.5, clamped at 100, line 166) — keeps
`health_score` within `[0, 100]`; the per-event updates are exactly the
clamped deltas the claim states. -/
theorem health_score_clamped (evs : List HealthEvent) :
    (0 ≤ runHealth 100 evs ∧ runHealth 100 evs ≤ 100)
    ∧ (∀ h : ℚ, applyHealth h .taskFailure = max 0 (h - 5))
    ∧ (∀ h : ℚ, applyHealth h .localQueueFullMiss = max 0 (h - 1))
    ∧ (∀ h : ℚ, applyHealth h .taskSuccess = min 100 (h + 0.5)) :=
  ⟨runHealth_bounds evs 100 (by norm_num) le_rfl,
   fun _ => rfl, fun _ => rfl, fun _ => rfl⟩

/-- Claim C1, counterexample: `Dispatcher.stop` (dispatcher.py lines
72-80) only cancels the router and worker fibers; no code path writes a
shutdown error into pending futures, so a task that is still pending when
the dispatcher stops is left unfulfilled — not fulfilled with a shutdown
error as the claim states. -/
theorem stop_leaves_pending_slot_unfulfilled :
    slotRun .unfulfilled [.dispatcherStopCalled] = .unfulfilled
    ∧ slotDone (slotRun .unfulfilled [.dispatcherStopCalled]) = false :=
  ⟨rfl, rfl⟩

/-- A single event never changes an already-fulfilled slot. -/
theorem slotStep_of_done (s : Slot) (e : SlotEvent) (hd : slotDone s = true) :
    slotStep s e = s := by
  cases e <;> simp [slotStep, setResultIfPending, setExceptionIfPending, hd]

/-- Claim C1 as amended (see `stop_leaves_pending_slot_unfulfilled`):
every task's result slot is fulfilled *at most* once — the worker's
`if not item.future.done()` guards make any later fulfilment attempt a
no-op — and a dispatcher stop never fulfils a pending slot, so tasks
pending at stop receive no shutdown error and stay unfulfilled. -/
theorem slot_fulfilled_at_most_once :
    (∀ (evs : List SlotEvent) (s : Slot), slotDone s = true → slotRun s evs = s)
    ∧ (∀ evs : List SlotEvent, (∀ e ∈ evs, e = .dispatcherStopCalled) →
        slotRun .unfulfilled evs = .unfulfilled) := by
  constructor
  · intro evs
    induction evs with
    | nil => intro s _; rfl
    | cons e rest ih =>
      intro s hd
      have hstep := slotStep_of_done s e hd
      simp only [slotRun, List.foldl, hstep]
      exact ih s hd
  · intro evs
    induction evs with
    | nil => intro _; rfl
    | cons e rest ih =>
      intro hall
      have he : e = .dispatcherStopCalled := hall e (by simp)
      have hrest : ∀ e' ∈ rest, e' = SlotEvent.dispatcherStopCalled := by
        intro e' he'; exact hall e' (by simp [he'])
      simp only [slotRun, List.foldl, he, slotStep]
      exact ih hrest

/-- Witness for `slot_fulfilled_at_most_once`: a fulfilled slot survives a
later failure report unchanged, and a pending slot survives a stop. -/
theorem slot_fulfilled_at_most_once_witness :
    slotRun (.result (.obj [])) [.workerFailure .timeoutError] = .result (.obj [])
    ∧ slotRun .unfulfilled [.dispatcherStopCalled] = .unfulfilled :=
  ⟨slot_fulfilled_at_most_once.1 [.workerFailure .timeoutError] (.result (.obj [])) rfl,
   slot_fulfilled_at_most_once.2 [.dispatcherStopCalled] (by simp)⟩

/-- A saturated single-account fleet for the router-timeout scenario:
account `a` with `max_concurrency = 1` and `inflight = 1`. -/
def satAcc : AccountState :=
  { handle := { account_id := "a", max_concurrency := 1 }
    queueLen := 0, last_used_ts := 0, health_score := 100, inflight := 1 }

/-- Claim C2 (code bug): the spec says that when the picked account is at
`max_concurrency` the router waits on the capacity event with a 1 s
timeout and then re-picks — also when the timeout expires without a
signal — and that no per-task condition kills the router.  In the source
(`dispatcher.py` line 134) the 1 s `asyncio.wait_for` raises
`asyncio.TimeoutError` on expiry and `_router_loop` has no exception
handler, so the exception escapes and terminates the router fiber.  This
theorem evaluates the embedded iteration at the failing input (one
saturated account, no capacity signal within 1 s): the outcome is an
uncaught `TimeoutError`, while a capacity signal within the second indeed
leads to a re-pick. -/
theorem router_dies_on_capacity_timeout :
    routerIteration "round-robin" 50 none [satAcc] 0 false = (.uncaught .timeoutError, 0)
    ∧ routerIteration "round-robin" 50 none [satAcc] 0 true = (.capacityWaitThenRepick, 0) :=
  ⟨rfl, rfl⟩

/-- Always-usable account `a` for the round-robin scenario. -/
def rrAccA : AccountState :=
  { handle := { account_id := "a", max_concurrency := 1 }
    queueLen := 0, last_used_ts := 0, health_score := 100, inflight := 0 }

/-- Always-usable account `b` for the round-robin scenario. -/
def rrAccB : AccountState :=
  { handle := { account_id := "b", max_concurrency := 1 }
    queueLen := 0, last_used_ts := 0, health_score := 100, inflight := 0 }

/-- The ids served by `n` consecutive round-robin picks, threading the
persistent cursor exactly as `_router_loop` does between tasks. -/
def rrPickSeq : Nat → List AccountState → Nat → List String
  | 0, _, _ => []
  | n + 1, accounts, cursor =>
    match pickAccount "round-robin" none accounts cursor with
    | (some a, c') => a.handle.account_id :: rrPickSeq n accounts c'
    | (none, c') => rrPickSeq n accounts c'

/-- Claim C6 (confirmed): under round-robin every pick sorts the usable
accounts by id, picks the cursor position modulo the usable fleet size and
advances the cursor (modulo the fleet size); with the two always-usable
accounts `a` and `b` and four sequential submissions the picks are
`a, b, a, b`. -/
theorem round_robin_pick (accounts : List AccountState) (cursor : Nat)
    (hne : usableAccounts accounts ≠ []) :
    pickAccount "round-robin" none accounts cursor =
      ((sortById (usableAccounts accounts))[cursor % (sortById (usableAccounts accounts)).length]?,
       (cursor % (sortById (usableAccounts accounts)).length + 1) %
         (sortById (usableAccounts accounts)).length)
    ∧ rrPickSeq 4 [rrAccA, rrAccB] 0 = ["a", "b", "a", "b"] := by
  constructor
  · have h1 : pyLower (effStrategyRaw none "round-robin") ∉ lruNames := by decide
    have h2 : pyLower (effStrategyRaw none "round-robin") ∉ healthNames := by decide
    simp [pickAccount, h1, h2, hne]
  · rfl

/-- Witness for `round_robin_pick` at the two-account fleet with cursor 0. -/
theorem round_robin_pick_witness :
    pickAccount "round-robin" none [rrAccA, rrAccB] 0 =
      ((sortById (usableAccounts [rrAccA, rrAccB]))[0 % (sortById (usableAccounts [rrAccA, rrAccB])).length]?,
       (0 % (sortById (usableAccounts [rrAccA, rrAccB])).length + 1) %
         (sortById (usableAccounts [rrAccA, rrAccB])).length)
    ∧ rrPickSeq 4 [rrAccA, rrAccB] 0 = ["a", "b", "a", "b"] :=
  round_robin_pick [rrAccA, rrAccB] 0 (by decide)

/-- Account `a`, used more recently (`last_used_ts = 5`). -/
def hintAccA : AccountState :=
  { handle := { account_id := "a", max_concurrency := 1 }
    queueLen := 0, last_used_ts := 5, health_score := 100, inflight := 0 }

/-- Account `b`, least recently used (`last_used_ts = 1`). -/
def hintAccB : AccountState :=
  { handle := { account_id := "b", max_concurrency := 1 }
    queueLen := 0, last_used_ts := 1, health_score := 100, inflight := 0 }

/-- Claim C10, counterexample: an empty-string `strategyHint` is present
and is not one of the recognised values, yet Python's falsy chain
`(hint or self._cfg.routing or "round-robin")` (dispatcher.py line 98)
treats `""` as absent and falls back to the configured strategy.  With
configured routing `lru`, the task goes to the least-recently-used account
`b`, not to the round-robin pick `a` the claim requires. -/
theorem empty_hint_falls_back_to_configured :
    (pickAccount "lru" (some "") [hintAccA, hintAccB] 0).1 = some hintAccB
    ∧ (pickAccount "round-robin" none [hintAccA, hintAccB] 0).1 = some hintAccA
    ∧ hintAccB ≠ hintAccA :=
  ⟨rfl, rfl, by decide⟩

/-- Claim C10 as amended: for every task whose `strategyHint` is a
*non-empty* string that is not one of the recognised lru/health aliases,
the dispatcher routes the task by round-robin, ignoring the configured
routing strategy entirely (the result is the same for any two configured
strategies, and equal to the plain round-robin pick); an empty-string hint
instead falls back to the configured strategy. -/
theorem nonempty_unrecognised_hint_routes_round_robin
    (s routing routing' : String) (accounts : List AccountState) (cursor : Nat)
    (hs : s ≠ "") (hl : pyLower s ∉ lruNames) (hh : pyLower s ∉ healthNames) :
    pickAccount routing (some s) accounts cursor
      = pickAccount routing' (some s) accounts cursor
    ∧ pickAccount routing (some s) accounts cursor
      = pickAccount "round-robin" none accounts cursor := by
  have he : ∀ r : String, effStrategyRaw (some s) r = s := by
    intro r; simp [effStrategyRaw, hs]
  have h1 : pyLower (effStrategyRaw none "round-robin") ∉ lruNames := by decide
  have h2 : pyLower (effStrategyRaw none "round-robin") ∉ healthNames := by decide
  constructor
  · simp [pickAccount, he, hl, hh]
  · simp [pickAccount, he, hl, hh, h1, h2]

/-- Witness for `nonempty_unrecognised_hint_routes_round_robin`: the
unrecognised hint `"Fancy"` routes round-robin under both configured
`lru` and `health`. -/
theorem nonempty_unrecognised_hint_witness :
    (pickAccount "lru" (some "Fancy") [hintAccA, hintAccB] 0
      = pickAccount "health" (some "Fancy") [hintAccA, hintAccB] 0)
    ∧ (pickAccount "lru" (some "Fancy") [hintAccA, hintAccB] 0
      = pickAccount "round-robin" none [hintAccA, hintAccB] 0) :=
  nonempty_unrecognised_hint_routes_round_robin "Fancy" "lru" "health"
    [hintAccA, hintAccB] 0 (by decide) (by decide) (by decide)

/-- Lookup distributes over concatenation of environments. -/
theorem envLookup_append (xs ys : List (String × String)) (k : String) :
    envLookup (xs ++ ys) k = (envLookup xs k).orElse (fun _ => envLookup ys k) := by
  induction xs with
  | nil => simp [envLookup]
  | cons p rest ih =>
    by_cases hk : p.1 = k
    · simp [envLookup, hk]
    · simp [envLookup, hk, ih]

/-- Claim C9, counterexample: `load_config` runs
`env.setdefault("AG_CONFIG_DIR", state_dir)` (config.py line 102) on the
*raw* `stateDir` string and only expands `~` afterwards, for the stored
`state_dir` field (line 107).  With `stateDir = "~/s"` and no explicit
account `env`, every spawned command receives `AG_CONFIG_DIR = "~/s"`,
not the expanded `"/home/u/s"` the claim requires. -/
theorem config_dir_default_not_expanded :
    envLookup (spawnEnvForAccount [] [] "/home/u" "~/s") "AG_CONFIG_DIR" = some "~/s"
    ∧ loadConfigStateDir "/home/u" "~/s" = "/home/u/s"
    ∧ ("~/s" : String) ≠ "/home/u/s" :=
  ⟨rfl, rfl, by decide⟩

/-- Claim C9 as amended: for every account command spawn, the environment
is the process env merged with the account's env where account entries
win, and — unless the account's env explicitly sets it — it contains
`AG_CONFIG_DIR` equal to the account's `stateDir` exactly as written in
the configuration, *without* `~` expansion (only the stored `state_dir`
path is expanded). -/
theorem spawn_env_propagation (pe ae : List (String × String)) (home sd : String) :
    (envLookup ae "AG_CONFIG_DIR" = none →
      envLookup (spawnEnvForAccount pe ae home sd) "AG_CONFIG_DIR" = some sd)
    ∧ (∀ k v, envLookup ae k = some v →
      envLookup (spawnEnvForAccount pe ae home sd) k = some v)
    ∧ (∀ k, envLookup ae k = none → k ≠ "AG_CONFIG_DIR" →
      envLookup (spawnEnvForAccount pe ae home sd) k = envLookup pe k) := by
  refine ⟨?_, ?_, ?_⟩
  · intro hnone
    have hcfg : envLookup (loadConfigAccountEnv ae sd) "AG_CONFIG_DIR" = some sd := by
      simp [loadConfigAccountEnv, envSetdefault, hnone, envLookup_append, envLookup]
    simp [spawnEnvForAccount, sessionEnv, envSetdefault, envUpdate, envLookup_append, hcfg]
  · intro k v hv
    have hcfg : envLookup (loadConfigAccountEnv ae sd) k = some v := by
      unfold loadConfigAccountEnv envSetdefault
      split
      · exact hv
      · simp [envLookup_append, hv]
    unfold spawnEnvForAccount sessionEnv envSetdefault envUpdate
    split
    · simp [envLookup_append, hcfg]
    · simp [envLookup_append, hcfg]
  · intro k hnone hne
    have hcfg : envLookup (loadConfigAccountEnv ae sd) k = none := by
      unfold loadConfigAccountEnv envSetdefault
      split
      · exact hnone
      · simp [envLookup_append, hnone, envLookup, Ne.symm hne]
    unfold spawnEnvForAccount sessionEnv envSetdefault envUpdate
    split
    · simp [envLookup_append, hcfg]
    · cases hpe : envLookup pe k <;>
        simp [envLookup_append, hcfg, envLookup, Ne.symm hne, hpe]

/-- Witness for `spawn_env_propagation`: a concrete process env, account
env and state dir exercising all three conjuncts. -/
theorem spawn_env_propagation_witness :
    envLookup (spawnEnvForAccount [("PATH", "/bin"), ("FOO", "proc")]
        [("FOO", "acct")] "/h" "/sd") "AG_CONFIG_DIR" = some "/sd"
    ∧ envLookup (spawnEnvForAccount [("PATH", "/bin"), ("FOO", "proc")]
        [("FOO", "acct")] "/h" "/sd") "FOO" = some "acct"
    ∧ envLookup (spawnEnvForAccount [("PATH", "/bin"), ("FOO", "proc")]
        [("FOO", "acct")] "/h" "/sd") "PATH" = envLookup [("PATH", "/bin"), ("FOO", "proc")] "PATH" :=
  ⟨(spawn_env_propagation _ _ "/h" "/sd").1 rfl,
   (spawn_env_propagation _ _ "/h" "/sd").2.1 "FOO" "acct" rfl,
   (spawn_env_propagation _ _ "/h" "/sd").2.2 "PATH" rfl (by decide)⟩

/-- Writing the dict object at one address leaves every other address's
object unchanged. -/
theorem heapGet_heapSet_ne (h : Heap) (a b : Nat) (d' : PyDict) (hab : a ≠ b) :
    heapGet (heapSet h b d') a = heapGet h a := by
  induction h with
  | nil => rfl
  | cons p rest ih =>
    obtain ⟨c, d⟩ := p
    by_cases hcb : c = b
    · subst hcb
      simp [heapSet, heapGet, Ne.symm hab]
    · by_cases hca : c = a
      · subst hca
        simp [heapSet, heapGet, hcb]
      · simp [heapSet, heapGet, hcb, hca, ih]

/-- Mutating a key of the dict at `b` leaves the dict at `a ≠ b`
untouched. -/
theorem heapGet_heapSetKey_ne (h : Heap) (a b : Nat) (k : String) (v : PyVal)
    (hab : a ≠ b) :
    heapGet (heapSetKey h b k v) a = heapGet h a := by
  unfold heapSetKey
  cases heapGet h b with
  | none => rfl
  | some d => exact heapGet_heapSet_ne h a b (dictSet d k v) hab

/-- The caller's request before submission: dict 0 is the request,
holding a reference to the nested dict 1 under `"metadata"`. -/
def reqHeap0 : Heap := [(0, [("metadata", .vref 1)]), (1, [("x", .vint 1)])]

/-- The heap right after `Dispatcher.submit` copied the request:
`dict(request)` allocated dict 2 with the same top-level table. -/
def reqHeap1 : Heap := shallowCopyDict reqHeap0 0 2

/-- The heap after the caller mutates the nested dict (`request["metadata"]["x"] = 2`)
once `submit` has returned its `TaskItem`. -/
def reqHeap2 : Heap := heapSetKey reqHeap1 1 "x" (.vint 2)

/-- Claim C8, counterexample: `submit` copies the request with
`dict(request)` (dispatcher.py line 89) — a *shallow* copy, not a deep
one.  Mutating the nested `metadata` dict after `submit` changes the
value the routed request resolves to, so the routed request is not
decoupled from nested caller mutation. -/
theorem nested_mutation_changes_routed_request :
    snapshotDict reqHeap1 3 2 = some (.jdict [("metadata", .jdict [("x", .jint 1)])])
    ∧ snapshotDict reqHeap2 3 2 = some (.jdict [("metadata", .jdict [("x", .jint 2)])])
    ∧ (some (JTree.jdict [("metadata", .jdict [("x", .jint 1)])])
        ≠ some (JTree.jdict [("metadata", .jdict [("x", .jint 2)])])) :=
  ⟨rfl, rfl, by simp⟩

/-- Claim C8 as amended: `submit` copies the request *shallowly*
(`dict(request)`): the routed `TaskItem.request` gets its own top-level
key table, so replacing top-level entries of the caller's dict after
`submit` does not change the routed dict's table; but nested values are
shared by reference, and mutating a nested dict does change the request
the session receives. -/
theorem submit_copies_top_level_only (h : Heap) (src fresh : Nat) (k : String)
    (v : PyVal) (hne : fresh ≠ src) :
    (heapGet (heapSetKey (shallowCopyDict h src fresh) src k v) fresh
      = heapGet (shallowCopyDict h src fresh) fresh)
    ∧ snapshotDict reqHeap1 3 2 ≠ snapshotDict reqHeap2 3 2 := by
  constructor
  · exact heapGet_heapSetKey_ne (shallowCopyDict h src fresh) fresh src k v hne
  · intro hcontra
    have h1 : snapshotDict reqHeap1 3 2
        = some (.jdict [("metadata", .jdict [("x", .jint 1)])]) := rfl
    have h2 : snapshotDict reqHeap2 3 2
        = some (.jdict [("metadata", .jdict [("x", .jint 2)])]) := rfl
    rw [h1, h2] at hcontra
    simp at hcontra

/-- Witness for `submit_copies_top_level_only`: the concrete pre-submit
heap, copying dict 0 to dict 2 and then overwriting the caller's
top-level `metadata` key. -/
theorem submit_copies_top_level_only_witness :
    (heapGet (heapSetKey (shallowCopyDict reqHeap0 0 2) 0 "metadata" (.vint 9)) 2
      = heapGet (shallowCopyDict reqHeap0 0 2) 2)
    ∧ snapshotDict reqHeap1 3 2 ≠ snapshotDict reqHeap2 3 2 :=
  submit_copies_top_level_only reqHeap0 0 2 "metadata" (.vint 9) (by decide)

/-- Account `b` first in the configured fleet, tied on both keys. -/
def tieAccB : AccountState :=
  { handle := { account_id := "b", max_concurrency := 1 }
    queueLen := 0, last_used_ts := 0, health_score := 100, inflight := 0 }

/-- Account `a` second in the configured fleet, tied on both keys. -/
def tieAccA : AccountState :=
  { handle := { account_id := "a", max_concurrency := 1 }
    queueLen := 0, last_used_ts := 0, health_score := 100, inflight := 0 }

/-- Claim C7, counterexample: with two usable accounts configured in the
order `b, a` whose `last_used_ts` (resp. `health_score`) are equal,
Python's `min`/`max` (dispatcher.py lines 104, 107) keep the *first*
element of the account map on a tie, so both strategies pick `b` — while
the claimed lexicographic tie-break on `account_id` requires `a`
(`"a" <= "b"`). -/
theorem tie_break_is_map_order_not_lexicographic :
    (pickAccount "lru" none [tieAccB, tieAccA] 0).1 = some tieAccB
    ∧ (pickAccount "health" none [tieAccB, tieAccA] 0).1 = some tieAccB
    ∧ tieAccA.last_used_ts = tieAccB.last_used_ts
    ∧ tieAccA.health_score = tieAccB.health_score
    ∧ tieAccA.handle.account_id = "a"
    ∧ tieAccB.handle.account_id = "b"
    ∧ pyStrLe "a" "b" = true
    ∧ tieAccB ≠ tieAccA :=
  ⟨rfl, rfl, rfl, rfl, rfl, rfl, rfl, by decide⟩

/-- Running minimum of `key` over a list, seeded with `m` — the value
Python's `min` loop tracks. -/
def keyMinQ (key : AccountState → ℚ) : ℚ → List AccountState → ℚ
  | m, [] => m
  | m, y :: ys => keyMinQ key (min m (key y)) ys

/-- The minimal `key` over a non-empty list (0 on the empty list, which
never arises: the router checks usability first). -/
def keyMinOf (key : AccountState → ℚ) : List AccountState → ℚ
  | [] => 0
  | x :: xs => keyMinQ key (key x) xs

/-- Running maximum of `key` over a list, seeded with `m`. -/
def keyMaxQ (key : AccountState → ℚ) : ℚ → List AccountState → ℚ
  | m, [] => m
  | m, y :: ys => keyMaxQ key (max m (key y)) ys

/-- The maximal `key` over a non-empty list. -/
def keyMaxOf (key : AccountState → ℚ) : List AccountState → ℚ
  | [] => 0
  | x :: xs => keyMaxQ key (key x) xs

/-- The running minimum never exceeds its seed. -/
theorem keyMinQ_le_init (key : AccountState → ℚ) (xs : List AccountState) :
    ∀ m : ℚ, keyMinQ key m xs ≤ m := by
  induction xs with
  | nil => intro m; exact le_rfl
  | cons y ys ih =>
    intro m
    exact le_trans (ih (min m (key y))) (min_le_left m (key y))

/-- The running maximum never drops below its seed. -/
theorem init_le_keyMaxQ (key : AccountState → ℚ) (xs : List AccountState) :
    ∀ m : ℚ, m ≤ keyMaxQ key m xs := by
  induction xs with
  | nil => intro m; exact le_rfl
  | cons y ys ih =>
    intro m
    exact le_trans (le_max_left m (key y)) (ih (max m (key y)))

/-- Python's `min` loop returns the first element attaining the minimal
key. -/
theorem pyFoldMin_eq_find (key : AccountState → ℚ) (xs : List AccountState) :
    ∀ acc : AccountState,
      (acc :: xs).find? (fun a => decide (key a = keyMinQ key (key acc) xs))
        = some (pyFoldMin key acc xs) := by
  induction xs with
  | nil =>
    intro acc
    simp [pyFoldMin, keyMinQ]
  | cons y ys ih =>
    intro acc
    by_cases hlt : key y < key acc
    · have hmin : keyMinQ key (key acc) (y :: ys) = keyMinQ key (key y) ys := by
        simp [keyMinQ, min_eq_right (le_of_lt hlt)]
      have hfold : pyFoldMin key acc (y :: ys) = pyFoldMin key y ys := by
        simp [pyFoldMin, hlt]
      have hMy : keyMinQ key (key y) ys ≤ key y := keyMinQ_le_init key ys (key y)
      have hne : ¬ (key acc = keyMinQ key (key acc) (y :: ys)) := by
        rw [hmin]
        intro heq
        have hcontra : key acc ≤ key y := by rw [heq]; exact hMy
        exact absurd hlt (not_lt.mpr hcontra)
      rw [hfold, List.find?_cons_of_neg _ (by simpa using hne)]
      simpa [hmin] using ih y
    · have hle : key acc ≤ key y := le_of_not_lt hlt
      have hmin : keyMinQ key (key acc) (y :: ys) = keyMinQ key (key acc) ys := by
        simp [keyMinQ, min_eq_left hle]
      have hfold : pyFoldMin key acc (y :: ys) = pyFoldMin key acc ys := by
        simp [pyFoldMin, hlt]
      have hMacc : keyMinQ key (key acc) ys ≤ key acc := keyMinQ_le_init key ys (key acc)
      by_cases heq : key acc = keyMinQ key (key acc) ys
      · have hpos : key acc = keyMinQ key (key acc) (y :: ys) := by rw [hmin]; exact heq
        have hIH := ih acc
        rw [List.find?_cons_of_pos _ (by simpa using heq)] at hIH
        rw [hfold, List.find?_cons_of_pos _ (by simpa using hpos)]
        exact hIH
      · have hney : ¬ (key y = keyMinQ key (key acc) ys) := by
          intro heqy
          have h1 : key acc ≤ keyMinQ key (key acc) ys := by rw [← heqy]; exact hle
          exact heq (le_antisymm h1 hMacc)
        have hIH := ih acc
        rw [List.find?_cons_of_neg _ (by simpa using heq)] at hIH
        rw [hfold, hmin, List.find?_cons_of_neg _ (by simpa using heq),
          List.find?_cons_of_neg _ (by simpa using hney)]
        exact hIH

/-- Python's `max` loop returns the first element attaining the maximal
key. -/
theorem pyFoldMax_eq_find (key : AccountState → ℚ) (xs : List AccountState) :
    ∀ acc : AccountState,
      (acc :: xs).find? (fun a => decide (key a = keyMaxQ key (key acc) xs))
        = some (pyFoldMax key acc xs) := by
  induction xs with
  | nil =>
    intro acc
    simp [pyFoldMax, keyMaxQ]
  | cons y ys ih =>
    intro acc
    by_cases hlt : key acc < key y
    · have hmax : keyMaxQ key (key acc) (y :: ys) = keyMaxQ key (key y) ys := by
        simp [keyMaxQ, max_eq_right (le_of_lt hlt)]
      have hfold : pyFoldMax key acc (y :: ys) = pyFoldMax key y ys := by
        simp [pyFoldMax, hlt]
      have hMy : key y ≤ keyMaxQ key (key y) ys := init_le_keyMaxQ key ys (key y)
      have hne : ¬ (key acc = keyMaxQ key (key acc) (y :: ys)) := by
        rw [hmax]
        intro heq
        have hcontra : key y ≤ key acc := by rw [heq]; exact hMy
        exact absurd hlt (not_lt.mpr hcontra)
      rw [hfold, List.find?_cons_of_neg _ (by simpa using hne)]
      simpa [hmax] using ih y
    · have hle : key y ≤ key acc := le_of_not_lt hlt
      have hmax : keyMaxQ key (key acc) (y :: ys) = keyMaxQ key (key acc) ys := by
        simp [keyMaxQ, max_eq_left hle]
      have hfold : pyFoldMax key acc (y :: ys) = pyFoldMax key acc ys := by
        simp [pyFoldMax, hlt]
      have hMacc : key acc ≤ keyMaxQ key (key acc) ys := init_le_keyMaxQ key ys (key acc)
      by_cases heq : key acc = keyMaxQ key (key acc) ys
      · have hpos : key acc = keyMaxQ key (key acc) (y :: ys) := by rw [hmax]; exact heq
        have hIH := ih acc
        rw [List.find?_cons_of_pos _ (by simpa using heq)] at hIH
        rw [hfold, List.find?_cons_of_pos _ (by simpa using hpos)]
        exact hIH
      · have hney : ¬ (key y = keyMaxQ key (key acc) ys) := by
          intro heqy
          exact heq (le_antisymm hMacc (heqy ▸ hle))
        have hIH := ih acc
        rw [List.find?_cons_of_neg _ (by simpa using heq)] at hIH
        rw [hfold, hmax, List.find?_cons_of_neg _ (by simpa using heq),
          List.find?_cons_of_neg _ (by simpa using hney)]
        exact hIH

/-- Claim C7 as amended: `lru` picks a usable account with the smallest
`last_used_ts` and `health` one with the largest `health_score`, but ties
are broken by position in the dispatcher's account map — the first tied
account in configuration order wins (Python's `min`/`max` keep the
earliest element) — not by lexicographic `account_id`. -/
theorem lru_health_pick_first_optimum (accounts : List AccountState) (cursor : Nat)
    (hne : usableAccounts accounts ≠ []) :
    (pickAccount "lru" none accounts cursor).1
      = (usableAccounts accounts).find?
          (fun a => decide (a.last_used_ts
            = keyMinOf (fun b => b.last_used_ts) (usableAccounts accounts)))
    ∧ (pickAccount "health" none accounts cursor).1
      = (usableAccounts accounts).find?
          (fun a => decide (a.health_score
            = keyMaxOf (fun b => b.health_score) (usableAccounts accounts))) := by
  obtain ⟨x, xs, hx⟩ := List.exists_cons_of_ne_nil hne
  have hlru : pyLower (effStrategyRaw none "lru") ∈ lruNames := by decide
  have hh1 : pyLower (effStrategyRaw none "health") ∉ lruNames := by decide
  have hh2 : pyLower (effStrategyRaw none "health") ∈ healthNames := by decide
  constructor
  · simp only [pickAccount, hx]
    simp [hlru, pyMinBy, keyMinOf]
    exact (pyFoldMin_eq_find (fun b => b.last_used_ts) xs x).symm
  · simp only [pickAccount, hx]
    simp [hh1, hh2, pyMaxBy, keyMaxOf]
    exact (pyFoldMax_eq_find (fun b => b.health_score) xs x).symm

/-- Witness for `lru_health_pick_first_optimum` at the tied two-account
fleet configured in the order `b, a`. -/
theorem lru_health_pick_first_optimum_witness :
    (pickAccount "lru" none [tieAccB, tieAccA] 0).1
      = (usableAccounts [tieAccB, tieAccA]).find?
          (fun a => decide (a.last_used_ts
            = keyMinOf (fun b => b.last_used_ts) (usableAccounts [tieAccB, tieAccA])))
    ∧ (pickAccount "health" none [tieAccB, tieAccA] 0).1
      = (usableAccounts [tieAccB, tieAccA]).find?
          (fun a => decide (a.health_score
            = keyMaxOf (fun b => b.health_score) (usableAccounts [tieAccB, tieAccA]))) :=
  lru_health_pick_first_optimum [tieAccB, tieAccA] 0 (by decide)
